import Mathlib

/-!
Verification of the timeout-guarded file access layer (`lib/files`:
`readFile`/`writeFile` over a shared run-with-timeout primitive).

The implementation itself ships outside this tree; its observable contract
is fixed by the specification document and by the unit tests in
`packages/server/test/unit/files_spec.js`.  Every definition below is a
shallow embedding of that contract: the race between the I/O action and the
timer is modelled as two producers writing to a one-shot outcome slot, the
filesystem is an explicit state, and byte/text conversion is a concrete
UTF-8 codec.
-/

namespace Files

/-- Modelled from the spec: result of the underlying asynchronous I/O
primitive (`fs.readFileAsync` / `fs.outputFile`) — it either fulfills with a
value or rejects with an error message. -/
inductive IOResult (α : Type) where
  | ok : α → IOResult α
  | err : String → IOResult α
deriving DecidableEq

/-- Modelled from the spec: the `TimeoutOutcome` tagged variant
`Completed(value) | Failed(error) | Aborted`. -/
inductive Outcome (α : Type) where
  | completed : α → Outcome α
  | failed : String → Outcome α
  | aborted : Outcome α
deriving DecidableEq

/-- Modelled from the spec: timing behaviour of one underlying I/O action —
it settles (fulfills or rejects) at some instant, or never settles. -/
inductive IOBehavior (α : Type) where
  | settlesAt : Nat → IOResult α → IOBehavior α
  | never : IOBehavior α
deriving DecidableEq

/-- Modelled from the spec: an event observed by the race between the I/O
action and the one-shot timer. -/
inductive RaceEvent (α : Type) where
  | actionSettled : IOResult α → RaceEvent α
  | timerFired : RaceEvent α
deriving DecidableEq

/-- Modelled from the spec: the single-assignment outcome slot.  The first
event writes the outcome; once settled, every later event is silently
discarded. -/
def settleSlot {α : Type} : Option (Outcome α) → RaceEvent α → Option (Outcome α)
  | some o, _ => some o
  | none, RaceEvent.timerFired => some Outcome.aborted
  | none, RaceEvent.actionSettled (IOResult.ok v) => some (Outcome.completed v)
  | none, RaceEvent.actionSettled (IOResult.err e) => some (Outcome.failed e)

/-- Fold a sequence of race events through the one-shot slot. -/
def runSlot {α : Type} (events : List (RaceEvent α)) : Option (Outcome α) :=
  events.foldl settleSlot none

/-- Modelled from the spec: a timer is armed only when `timeoutMillis` is
present and positive. -/
def timerArmed : Option Nat → Bool
  | some t => decide (0 < t)
  | none => false

/-- Modelled from the spec: the chronologically ordered events produced by
racing the action against the (optional) timer.  When the action settles
strictly before the deadline the timer is cleared and never fires; when the
timer fires first the action's late settlement still arrives as a later
event (soft cancellation) and must be discarded by the slot. -/
def raceEvents {α : Type} (timeout : Option Nat) : IOBehavior α → List (RaceEvent α)
  | IOBehavior.settlesAt s r =>
    match timeout with
    | some t =>
      if 0 < t then
        if s < t then [RaceEvent.actionSettled r]
        else [RaceEvent.timerFired, RaceEvent.actionSettled r]
      else [RaceEvent.actionSettled r]
    | none => [RaceEvent.actionSettled r]
  | IOBehavior.never =>
    match timeout with
    | some t => if 0 < t then [RaceEvent.timerFired] else []
    | none => []

/-- Result of one `runWithTimeout` invocation: the slot's content (`none`
means the call is still pending), whether a timer was created, and the
argument the unconditional `clearTimeout` call received (`none` models
JavaScript `undefined`). -/
structure RunResult (α : Type) where
  outcome : Option (Outcome α)
  timerCreated : Bool
  clearArg : Option Nat
deriving DecidableEq

/-- Modelled from the spec: `RunWithTimeout(action, timeoutMillis?)`.
`tid` is the opaque handle returned by `setTimeout` (test-injected in the
unit tests).  `clearTimeout` is always invoked on exit: with the handle when
a timer was armed, with `undefined` otherwise. -/
def runWithTimeout {α : Type} (tid : Nat) (timeout : Option Nat)
    (io : IOBehavior α) : RunResult α :=
  { outcome := runSlot (raceEvents timeout io)
    timerCreated := timerArmed timeout
    clearArg := if timerArmed timeout then some tid else none }

/-- Modelled from the spec: the timer fires before the I/O action settles —
either the action never settles, or its settle time is at or past an armed
deadline. -/
def timerWins {α : Type} (timeout : Option Nat) : IOBehavior α → Prop
  | IOBehavior.settlesAt s _ =>
    match timeout with
    | some t => 0 < t ∧ t ≤ s
    | none => False
  | IOBehavior.never => timerArmed timeout = true

instance {α : Type} (timeout : Option Nat) (io : IOBehavior α) :
    Decidable (timerWins timeout io) := by
  unfold timerWins
  cases io with
  | settlesAt s r =>
    cases timeout with
    | some t => exact inferInstanceAs (Decidable (0 < t ∧ t ≤ s))
    | none => exact inferInstanceAs (Decidable False)
  | never => exact inferInstanceAs (Decidable (timerArmed _ = true))

/-- Modelled from the spec: the error taxonomy of §7 —
`IOError | TimeoutError | ParseError`. -/
inductive ErrorKind where
  | ioError
  | timeoutError
  | parseError
deriving DecidableEq

/-- Modelled from the spec: `DecoratedError`.  `name` is the JavaScript
`Error.name` observed by the tests (`AbortError` on timeout); `aborted`
is an `Option Bool` because the tests pin `aborted` to `undefined`
(modelled as `none`) on plain I/O failures and to `true` on timeouts. -/
structure DecoratedError where
  kind : ErrorKind
  name : String
  message : String
  filePath : String
  aborted : Option Bool
deriving DecidableEq

/-- Timeout rejection: the tests require `name = AbortError`,
`aborted = true` and `filePath` set to the resolved path. -/
def mkTimeoutError (fp : String) : DecoratedError :=
  { kind := ErrorKind.timeoutError
    name := "AbortError"
    message := "operation timed out"
    filePath := fp
    aborted := some true }

/-- Underlying I/O failure decorated with the resolved path; the original
message is preserved unchanged and `aborted` is left `undefined`. -/
def mkIOError (msg fp : String) : DecoratedError :=
  { kind := ErrorKind.ioError
    name := "Error"
    message := msg
    filePath := fp
    aborted := none }

/-- Modelled from the spec: structured-data decoding failure after a
successful raw read; `aborted = false` per §7, still carries the resolved
path. -/
def mkParseError (fp : String) : DecoratedError :=
  { kind := ErrorKind.parseError
    name := "ParseError"
    message := "failed to parse structured data"
    filePath := fp
    aborted := some false }

/-- Modelled from the spec: `PathResolver.Resolve(root, relative)` — a pure
join of the project root with the caller-supplied relative path. -/
def resolvePath (root rel : String) : String :=
  (root ++ "/") ++ rel

/-- First list is a prefix of the second. -/
def listIsPrefix : List Char → List Char → Bool
  | [], _ => true
  | _ :: _, [] => false
  | a :: as, b :: bs => if a = b then listIsPrefix as bs else false

/-- A resolved path ends in a recognized structured-data (JSON) extension. -/
def isJsonPath (p : String) : Bool :=
  listIsPrefix ".json".data.reverse p.data.reverse

/-- UTF-8 encoding of one Unicode scalar value (1 to 4 bytes). -/
def utf8EncodeChar (c : Nat) : List Nat :=
  if c < 0x80 then [c]
  else if c < 0x800 then [0xC0 + c / 64, 0x80 + c % 64]
  else if c < 0x10000 then
    [0xE0 + c / 4096, 0x80 + c / 64 % 64, 0x80 + c % 64]
  else
    [0xF0 + c / 262144, 0x80 + c / 4096 % 64, 0x80 + c / 64 % 64, 0x80 + c % 64]

/-- UTF-8 encoding of a character sequence. -/
def utf8Encode : List Char → List Nat
  | [] => []
  | c :: cs => utf8EncodeChar c.toNat ++ utf8Encode cs

/-- The Unicode replacement character, emitted for invalid sequences
(Node's UTF-8 decoder never throws). -/
def replChar : Char := Char.ofNat 0xFFFD

/-- A UTF-8 continuation byte. -/
def contByte (b : Nat) : Prop := 0x80 <= b ∧ b < 0xC0

instance (b : Nat) : Decidable (contByte b) :=
  inferInstanceAs (Decidable (0x80 <= b ∧ b < 0xC0))

/-- Final validation of a decoded scalar value: `lo` is the smallest value
representable at the sequence's length (overlong rejection); surrogates and
out-of-range values decode to the replacement character. -/
def validScalar (lo c : Nat) : Char :=
  if lo <= c ∧ c < 0x110000 ∧ (c < 0xD800 ∨ 0xDFFF < c) then Char.ofNat c
  else replChar

/-- Decoder state: at a sequence boundary, or inside a multi-byte sequence
still expecting `k` continuation bytes with partial value `acc`. -/
inductive Utf8State where
  | start : Utf8State
  | need : Nat → Nat → Nat → Utf8State

/-- Total UTF-8 decoder, one byte per step: well-formed sequences decode to
their scalar values, malformed bytes to the replacement character. -/
def utf8DecodeSt : Utf8State → List Nat → List Char
  | Utf8State.start, [] => []
  | Utf8State.need _ _ _, [] => [replChar]
  | Utf8State.start, b :: bs =>
    if b < 0x80 then Char.ofNat b :: utf8DecodeSt Utf8State.start bs
    else if b < 0xC0 then replChar :: utf8DecodeSt Utf8State.start bs
    else if b < 0xE0 then utf8DecodeSt (Utf8State.need 1 0x80 (b - 0xC0)) bs
    else if b < 0xF0 then utf8DecodeSt (Utf8State.need 2 0x800 (b - 0xE0)) bs
    else if b < 0xF8 then
      utf8DecodeSt (Utf8State.need 3 0x10000 (b - 0xF0)) bs
    else replChar :: utf8DecodeSt Utf8State.start bs
  | Utf8State.need k lo acc, b :: bs =>
    if contByte b then
      if k <= 1 then
        validScalar lo (acc * 64 + (b - 0x80)) :: utf8DecodeSt Utf8State.start bs
      else utf8DecodeSt (Utf8State.need (k - 1) lo (acc * 64 + (b - 0x80))) bs
    else replChar :: utf8DecodeSt Utf8State.start bs

/-- Total UTF-8 decoding of a byte sequence. -/
def utf8Decode (bs : List Nat) : List Char :=
  utf8DecodeSt Utf8State.start bs

/-- Decode a byte sequence to a `String`. -/
def utf8DecodeStr (bs : List Nat) : String :=
  String.mk (utf8Decode bs)

/-- Explicit filesystem state: the set of existing directories and the file
store (newest binding first). -/
structure FsState where
  dirs : List String
  files : List (String × List Nat)
deriving DecidableEq

/-- The empty filesystem. -/
def emptyFs : FsState :=
  FsState.mk [] []

/-- Look up the current contents of a file (first binding wins). -/
def lookupFile : List (String × List Nat) → String → Option (List Nat)
  | [], _ => none
  | (q, bs) :: rest, p => if q = p then some bs else lookupFile rest p

/-- Split a character list at every slash. -/
def splitSlash : List Char → List Char → List (List Char)
  | [], acc => [acc.reverse]
  | c :: cs, acc =>
    if c = '/' then acc.reverse :: splitSlash cs []
    else splitSlash cs (c :: acc)

/-- Rejoin path components with slashes. -/
def joinSlash : List (List Char) → List Char
  | [] => []
  | [x] => x
  | x :: y :: rest => x ++ '/' :: joinSlash (y :: rest)

/-- All proper directory prefixes of a slash-separated path — the
intermediate directories a write must ensure. -/
def pathParents (p : String) : List String :=
  (List.range (splitSlash p.data []).length).filterMap fun i =>
    if i = 0 then none
    else some (String.mk (joinSlash ((splitSlash p.data []).take i)))

/-- Modelled from the spec: the raw write primitive fails when an
intermediate directory of the target path is missing; otherwise it stores
the bytes, concatenating after existing content in append mode. -/
def writeBytesPrim (st : FsState) (p : String) (bs : List Nat)
    (append : Bool) : Except String FsState :=
  if ∀ d ∈ pathParents p, d ∈ st.dirs then
    Except.ok (FsState.mk st.dirs
      ((p, if append then
          match lookupFile st.files p with
          | some old => old ++ bs
          | none => bs
        else bs) :: st.files))
  else Except.error ("ENOENT: no such file or directory, open " ++ p)

/-- Create every missing intermediate directory of `p`. -/
def ensureDir (st : FsState) (p : String) : FsState :=
  FsState.mk (pathParents p ++ st.dirs) st.files

/-- Modelled from the spec: `fs.outputFile` semantics — create missing
parent directories, then write.  The error branch of the raw primitive is
unreachable after `ensureDir` (proved below). -/
def outputFile (st : FsState) (p : String) (bs : List Nat)
    (append : Bool) : FsState :=
  match writeBytesPrim (ensureDir st p) p bs append with
  | Except.ok st2 => st2
  | Except.error _ => ensureDir st p

/-- Modelled from the spec: the language-neutral structured value tree a
JSON-like file is parsed into. -/
inductive JValue where
  | null : JValue
  | bool : Bool → JValue
  | num : Int → JValue
  | str : String → JValue
  | arr : List JValue → JValue
  | obj : List (String × JValue) → JValue

/-- Skip JSON insignificant whitespace. -/
def skipWs : List Char → List Char
  | c :: cs =>
    if c = ' ' ∨ c = '\n' ∨ c = '\t' ∨ c = '\r' then skipWs cs else c :: cs
  | [] => []

/-- Decimal digit. -/
def isDigit (c : Char) : Prop := '0' ≤ c ∧ c ≤ '9'

instance (c : Char) : Decidable (isDigit c) :=
  inferInstanceAs (Decidable ('0' ≤ c ∧ c ≤ '9'))

/-- Accumulate a run of decimal digits. -/
def parseDigits : List Char → Nat → Nat × List Char
  | c :: cs, acc =>
    if isDigit c then parseDigits cs (acc * 10 + (c.toNat - 48))
    else (acc, c :: cs)
  | [], acc => (acc, [])

/-- Scan a JSON string body up to the closing quote, handling the basic
escapes. -/
def parseStringBody : List Char → List Char → Option (String × List Char)
  | [], _ => none
  | c :: cs, acc =>
    if c = Char.ofNat 34 then some (String.mk acc.reverse, cs)
    else if c = Char.ofNat 92 then
      match cs with
      | [] => none
      | e :: cs2 =>
        if e = Char.ofNat 34 then parseStringBody cs2 (Char.ofNat 34 :: acc)
        else if e = Char.ofNat 92 then parseStringBody cs2 (Char.ofNat 92 :: acc)
        else if e = 'n' then parseStringBody cs2 ('\n' :: acc)
        else if e = 't' then parseStringBody cs2 ('\t' :: acc)
        else none
    else parseStringBody cs (c :: acc)

mutual

/-- Fuel-indexed JSON value scanner. -/
def parseValue : Nat → List Char → Option (JValue × List Char)
  | 0, _ => none
  | fuel + 1, input =>
    match skipWs input with
    | [] => none
    | c :: cs =>
      if c = 'n' then
        if cs.take 3 = ['u', 'l', 'l'] then some (JValue.null, cs.drop 3)
        else none
      else if c = 't' then
        if cs.take 3 = ['r', 'u', 'e'] then some (JValue.bool true, cs.drop 3)
        else none
      else if c = 'f' then
        if cs.take 4 = ['a', 'l', 's', 'e'] then
          some (JValue.bool false, cs.drop 4)
        else none
      else if c = Char.ofNat 34 then
        match parseStringBody cs [] with
        | some (s, rest) => some (JValue.str s, rest)
        | none => none
      else if c = '-' then
        match cs with
        | d :: _ =>
          if isDigit d then
            match parseDigits cs 0 with
            | (n, rest) => some (JValue.num (-(n : Int)), rest)
          else none
        | [] => none
      else if isDigit c then
        match parseDigits (c :: cs) 0 with
        | (n, rest) => some (JValue.num (n : Int), rest)
      else if c = '[' then parseArrayItems fuel cs
      else if c = Char.ofNat 123 then parseObjItems fuel cs
      else none

/-- Parse the items of a JSON array after the opening bracket. -/
def parseArrayItems : Nat → List Char → Option (JValue × List Char)
  | 0, _ => none
  | fuel + 1, input =>
    match skipWs input with
    | ']' :: rest => some (JValue.arr [], rest)
    | other =>
      match parseValue fuel other with
      | some (v, rest) =>
        match skipWs rest with
        | ',' :: rest2 =>
          match parseArrayItems fuel rest2 with
          | some (JValue.arr vs, rest3) => some (JValue.arr (v :: vs), rest3)
          | _ => none
        | ']' :: rest2 => some (JValue.arr [v], rest2)
        | _ => none
      | none => none

/-- Parse the fields of a JSON object after the opening brace. -/
def parseObjItems : Nat → List Char → Option (JValue × List Char)
  | 0, _ => none
  | fuel + 1, input =>
    match skipWs input with
    | c :: rest =>
      if c = Char.ofNat 125 then some (JValue.obj [], rest)
      else if c = Char.ofNat 34 then
        match parseStringBody rest [] with
        | some (key, rest1) =>
          match skipWs rest1 with
          | ':' :: rest2 =>
            match parseValue fuel rest2 with
            | some (v, rest3) =>
              match skipWs rest3 with
              | ',' :: rest4 =>
                match parseObjItems fuel rest4 with
                | some (JValue.obj fs, rest5) =>
                  some (JValue.obj ((key, v) :: fs), rest5)
                | _ => none
              | c2 :: rest4 =>
                if c2 = Char.ofNat 125 then
                  some (JValue.obj [(key, v)], rest4)
                else none
              | _ => none
            | none => none
          | _ => none
        | none => none
      else none
    | [] => none

end

/-- Modelled from the spec: parse raw text into a structured value tree
(JSON-like); `none` signals a parse failure. -/
def parseJson (s : String) : Option JValue :=
  match parseValue (s.data.length + 1) s.data with
  | some (v, rest) => if skipWs rest = [] then some v else none
  | none => none

/-- Modelled from the spec: the caller-facing `encoding` option —
absent (defaults to utf8), explicitly `null`/"none" (raw bytes), or utf8. -/
inductive EncodingOpt where
  | unspecified
  | null
  | utf8
deriving DecidableEq

/-- Options accepted by `readFile`. -/
structure ReadOptions where
  encoding : EncodingOpt := EncodingOpt.unspecified
  timeout : Option Nat := none
deriving DecidableEq

/-- Options accepted by `writeFile`; `appendMode` selects concatenation
over truncate-and-replace. -/
structure WriteOptions where
  encoding : EncodingOpt := EncodingOpt.unspecified
  timeout : Option Nat := none
  appendMode : Bool := false
deriving DecidableEq

/-- Contents returned by `readFile`: decoded text, raw bytes, or a parsed
structured value tree. -/
inductive Contents where
  | text : String → Contents
  | bytes : List Nat → Contents
  | json : JValue → Contents

/-- Successful `readFile` result: contents plus the resolved path. -/
structure ReadSuccess where
  contents : Contents
  filePath : String

/-- Successful `writeFile` result: the resolved path (contents are the
caller's own input and are not re-read). -/
structure WriteSuccess where
  filePath : String
deriving DecidableEq

/-- Observable result of one `readFile`/`writeFile` call: the settled
result (`none` while pending), whether a timer was created, and the
argument passed to the unconditional `clearTimeout` call. -/
structure ReadCallResult where
  result : Option (Except DecoratedError ReadSuccess)
  timerCreated : Bool
  clearArg : Option Nat

/-- Observable result of one `writeFile` call. -/
structure WriteCallResult where
  result : Option (Except DecoratedError WriteSuccess)
  timerCreated : Bool
  clearArg : Option Nat

/-- Turn a completed raw read into the caller-visible contents: a
JSON-extension path is parsed into a value tree (failure is a `ParseError`
still carrying the resolved path); otherwise explicit null encoding yields
the raw bytes and any other encoding decodes UTF-8 text. -/
def decodeContents (fp : String) (enc : EncodingOpt) (raw : List Nat) :
    Except DecoratedError ReadSuccess :=
  if isJsonPath fp then
    match parseJson (utf8DecodeStr raw) with
    | some v => Except.ok (ReadSuccess.mk (Contents.json v) fp)
    | none => Except.error (mkParseError fp)
  else
    match enc with
    | EncodingOpt.null => Except.ok (ReadSuccess.mk (Contents.bytes raw) fp)
    | _ => Except.ok (ReadSuccess.mk (Contents.text (utf8DecodeStr raw)) fp)

/-- Modelled from the spec: `ReadFile(root, relativePath, options?)` —
resolve the path, run the read action under the optional timeout, decode
per the requested encoding, decorate failures with the resolved path. -/
def readFile (tid : Nat) (root rel : String) (opts : ReadOptions)
    (io : IOBehavior (List Nat)) : ReadCallResult :=
  ReadCallResult.mk
    ((runWithTimeout tid opts.timeout io).outcome.map fun o =>
      match o with
      | Outcome.completed raw =>
        decodeContents (resolvePath root rel) opts.encoding raw
      | Outcome.failed msg =>
        Except.error (mkIOError msg (resolvePath root rel))
      | Outcome.aborted =>
        Except.error (mkTimeoutError (resolvePath root rel)))
    (runWithTimeout tid opts.timeout io).timerCreated
    (runWithTimeout tid opts.timeout io).clearArg

/-- Data handed to `writeFile`: a text string or raw bytes. -/
inductive FileData where
  | text : String → FileData
  | bytes : List Nat → FileData
deriving DecidableEq

/-- Bytes actually written: raw bytes are written verbatim with no
transcoding; text is UTF-8 encoded. -/
def encodeData : EncodingOpt → FileData → List Nat
  | _, FileData.bytes b => b
  | _, FileData.text s => utf8Encode s.data

/-- Whether the underlying write action eventually fulfills (even if the
caller stopped waiting): soft cancellation lets the late write land. -/
def ioEventuallyOk {α : Type} : IOBehavior α → Bool
  | IOBehavior.settlesAt _ (IOResult.ok _) => true
  | _ => false

/-- Modelled from the spec: `WriteFile(root, relativePath, data, options?)`
— resolve the path, run the write action (overwrite or append, creating
missing parent directories) under the optional timeout, decorate failures
with the resolved path.  Returns the observable call result together with
the filesystem state after the call. -/
def writeFile (tid : Nat) (st : FsState) (root rel : String)
    (data : FileData) (opts : WriteOptions) (io : IOBehavior Unit) :
    WriteCallResult × FsState :=
  (WriteCallResult.mk
    ((runWithTimeout tid opts.timeout io).outcome.map fun o =>
      match o with
      | Outcome.completed _ =>
        Except.ok (WriteSuccess.mk (resolvePath root rel))
      | Outcome.failed msg =>
        Except.error (mkIOError msg (resolvePath root rel))
      | Outcome.aborted =>
        Except.error (mkTimeoutError (resolvePath root rel)))
    (runWithTimeout tid opts.timeout io).timerCreated
    (runWithTimeout tid opts.timeout io).clearArg,
   if ioEventuallyOk io then
     outputFile st (resolvePath root rel) (encodeData opts.encoding data)
       opts.appendMode
   else st)

/-- The behaviour of a real (unstubbed) read on filesystem state `st`: it
settles immediately with the file's bytes, or rejects when the file is
missing. -/
def fsReadAction (st : FsState) (p : String) : IOBehavior (List Nat) :=
  IOBehavior.settlesAt 0
    (match lookupFile st.files p with
     | some bs => IOResult.ok bs
     | none => IOResult.err ("ENOENT: no such file or directory, open " ++ p))

/-- `readFile` against a real filesystem state (no stubbed primitives). -/
def readFileFs (st : FsState) (root rel : String) (opts : ReadOptions) :
    ReadCallResult :=
  readFile 0 root rel opts (fsReadAction st (resolvePath root rel))

/-- `writeFile` against a real filesystem state: the write action settles
immediately and fulfills. -/
def writeFileFs (st : FsState) (root rel : String) (data : FileData)
    (opts : WriteOptions) : WriteCallResult × FsState :=
  writeFile 0 st root rel data opts
    (IOBehavior.settlesAt 0 (IOResult.ok ()))

/-! ## Lemmas about the one-shot outcome slot -/

theorem settleSlot_settled {α : Type} (o : Outcome α) (e : RaceEvent α) :
    settleSlot (some o) e = some o := rfl

theorem foldl_settleSlot_settled {α : Type} (o : Outcome α)
    (l : List (RaceEvent α)) : l.foldl settleSlot (some o) = some o := by
  induction l with
  | nil => rfl
  | cons e l ih => simpa [settleSlot_settled] using ih

/-- Once the slot is settled, any later events are discarded. -/
theorem runSlot_append_of_settled {α : Type} {evs : List (RaceEvent α)}
    {o : Outcome α} (extra : List (RaceEvent α)) (h : runSlot evs = some o) :
    runSlot (evs ++ extra) = some o := by
  unfold runSlot at h ⊢
  rw [List.foldl_append, h]
  exact foldl_settleSlot_settled o extra

theorem raceEvents_timerWins {α : Type} {timeout : Option Nat}
    {io : IOBehavior α} (h : timerWins timeout io) :
    raceEvents timeout io =
      RaceEvent.timerFired ::
        (match io with
         | IOBehavior.settlesAt _ r => [RaceEvent.actionSettled r]
         | IOBehavior.never => []) := by
  cases io with
  | settlesAt s r =>
    cases timeout with
    | some t =>
      obtain ⟨ht, hts⟩ := h
      simp [raceEvents, ht, Nat.not_lt.mpr hts]
    | none => exact absurd h (by simp [timerWins])
  | never =>
    cases timeout with
    | some t =>
      have ht : 0 < t := by
        have := h
        simp [timerWins, timerArmed] at this
        exact this
      simp [raceEvents, ht]
    | none => simp [timerWins, timerArmed] at h

/-- When the timer fires first, the slot settles as `aborted`, and every
later event — including the I/O action's late settlement — is discarded. -/
theorem runSlot_raceEvents_timerWins {α : Type} {timeout : Option Nat}
    {io : IOBehavior α} (h : timerWins timeout io)
    (extra : List (RaceEvent α)) :
    runSlot (raceEvents timeout io ++ extra) = some Outcome.aborted := by
  rw [raceEvents_timerWins h]
  show runSlot (RaceEvent.timerFired :: _) = some Outcome.aborted
  unfold runSlot
  rw [List.foldl_cons]
  exact foldl_settleSlot_settled Outcome.aborted _

theorem runSlot_raceEvents_timerWins_nil {α : Type} {timeout : Option Nat}
    {io : IOBehavior α} (h : timerWins timeout io) :
    runSlot (raceEvents timeout io) = some Outcome.aborted := by
  have := runSlot_raceEvents_timerWins h []
  simpa using this

/-- With no armed timer the action's settlement is the only event. -/
theorem raceEvents_noTimer {α : Type} {timeout : Option Nat}
    (h : timerArmed timeout = false) (s : Nat) (r : IOResult α) :
    raceEvents timeout (IOBehavior.settlesAt s r) =
      [RaceEvent.actionSettled r] := by
  cases timeout with
  | some t =>
    have ht : ¬0 < t := by simpa [timerArmed] using h
    simp [raceEvents, ht]
  | none => rfl

/-! ## UTF-8 round trip -/

theorem utf8DecodeSt_encodeChar (c : Char) (rest : List Nat) :
    utf8DecodeSt Utf8State.start (utf8EncodeChar c.toNat ++ rest) =
      c :: utf8DecodeSt Utf8State.start rest := by
  have hv : c.toNat < 0xD800 ∨ (0xDFFF < c.toNat ∧ c.toNat < 0x110000) :=
    c.valid
  have hofn : Char.ofNat c.toNat = c := Char.ofNat_toNat c
  set n := c.toNat with hn
  by_cases h1 : n < 0x80
  · rw [show utf8EncodeChar n = [n] from by rw [utf8EncodeChar, if_pos h1]]
    simp only [List.cons_append, List.nil_append, utf8DecodeSt]
    rw [if_pos h1, hofn]
    rfl
  · by_cases h2 : n < 0x800
    · rw [show utf8EncodeChar n = [0xC0 + n / 64, 0x80 + n % 64] from by
        rw [utf8EncodeChar, if_neg h1, if_pos h2]]
      simp only [List.cons_append, List.nil_append]
      simp only [utf8DecodeSt]
      rw [if_neg (by omega : ¬0xC0 + n / 64 < 0x80),
        if_neg (by omega : ¬0xC0 + n / 64 < 0xC0),
        if_pos (by omega : 0xC0 + n / 64 < 0xE0),
        if_pos (show contByte (0x80 + n % 64) from ⟨by omega, by omega⟩),
        if_pos (by omega : (1 : Nat) ≤ 1),
        show 0xC0 + n / 64 - 0xC0 = n / 64 from by omega,
        show n / 64 * 64 + (0x80 + n % 64 - 0x80) = n from by omega,
        validScalar, if_pos ⟨by omega, by omega, Or.inl (by omega)⟩, hofn]
    · by_cases h3 : n < 0x10000
      · rw [show utf8EncodeChar n =
            [0xE0 + n / 4096, 0x80 + n / 64 % 64, 0x80 + n % 64] from by
          rw [utf8EncodeChar, if_neg h1, if_neg h2, if_pos h3]]
        simp only [List.cons_append, List.nil_append]
        simp only [utf8DecodeSt]
        rw [if_neg (by omega : ¬0xE0 + n / 4096 < 0x80),
          if_neg (by omega : ¬0xE0 + n / 4096 < 0xC0),
          if_neg (by omega : ¬0xE0 + n / 4096 < 0xE0),
          if_pos (by omega : 0xE0 + n / 4096 < 0xF0),
          if_pos (show contByte (0x80 + n / 64 % 64) from ⟨by omega, by omega⟩),
          if_neg (by omega : ¬(2 : Nat) ≤ 1),
          if_pos (show contByte (0x80 + n % 64) from ⟨by omega, by omega⟩),
          if_pos (by omega : (1 : Nat) ≤ 1),
          show 0xE0 + n / 4096 - 0xE0 = n / 4096 from by omega,
          show (n / 4096 * 64 + (0x80 + n / 64 % 64 - 0x80)) * 64 +
              (0x80 + n % 64 - 0x80) = n from by omega,
          validScalar, if_pos ⟨by omega, by omega, by omega⟩, hofn]
      · rw [show utf8EncodeChar n =
            [0xF0 + n / 262144, 0x80 + n / 4096 % 64, 0x80 + n / 64 % 64,
              0x80 + n % 64] from by
          rw [utf8EncodeChar, if_neg h1, if_neg h2, if_neg h3]]
        have hhi : n < 0x110000 := by
          rcases hv with h | h
          · omega
          · exact h.2
        simp only [List.cons_append, List.nil_append]
        simp only [utf8DecodeSt]
        rw [if_neg (by omega : ¬0xF0 + n / 262144 < 0x80),
          if_neg (by omega : ¬0xF0 + n / 262144 < 0xC0),
          if_neg (by omega : ¬0xF0 + n / 262144 < 0xE0),
          if_neg (by omega : ¬0xF0 + n / 262144 < 0xF0),
          if_pos (by omega : 0xF0 + n / 262144 < 0xF8),
          if_pos (show contByte (0x80 + n / 4096 % 64) from ⟨by omega, by omega⟩),
          if_neg (by omega : ¬(3 : Nat) ≤ 1),
          if_pos (show contByte (0x80 + n / 64 % 64) from ⟨by omega, by omega⟩),
          if_neg (by omega : ¬(3 - 1 : Nat) ≤ 1),
          if_pos (show contByte (0x80 + n % 64) from ⟨by omega, by omega⟩),
          if_pos (by omega : (3 - 1 - 1 : Nat) ≤ 1),
          show 0xF0 + n / 262144 - 0xF0 = n / 262144 from by omega,
          show ((n / 262144 * 64 + (0x80 + n / 4096 % 64 - 0x80)) * 64 +
              (0x80 + n / 64 % 64 - 0x80)) * 64 + (0x80 + n % 64 - 0x80) = n
            from by omega,
          validScalar, if_pos ⟨by omega, by omega, Or.inr (by omega)⟩, hofn]

/-- Decoding inverts encoding on every character sequence. -/
theorem utf8Decode_utf8Encode (cs : List Char) :
    utf8Decode (utf8Encode cs) = cs := by
  induction cs with
  | nil => rfl
  | cons c cs ih =>
    show utf8DecodeSt Utf8State.start (utf8EncodeChar c.toNat ++ utf8Encode cs)
      = c :: cs
    rw [utf8DecodeSt_encodeChar]
    exact congrArg (c :: ·) ih

/-- String-level UTF-8 round trip. -/
theorem utf8DecodeStr_utf8Encode (s : String) :
    utf8DecodeStr (utf8Encode s.data) = s := by
  show String.mk (utf8Decode (utf8Encode s.data)) = s
  rw [utf8Decode_utf8Encode]

/-- With no armed timer, `runWithTimeout` creates no timer, still calls
`clearTimeout` with `undefined`, and its outcome is exactly the action's
settlement. -/
theorem runWithTimeout_noTimer {α : Type} (tid : Nat) {timeout : Option Nat}
    (io : IOBehavior α) (h : timerArmed timeout = false) :
    (runWithTimeout tid timeout io).timerCreated = false ∧
    (runWithTimeout tid timeout io).clearArg = none ∧
    (runWithTimeout tid timeout io).outcome =
      (match io with
       | IOBehavior.settlesAt _ (IOResult.ok v) => some (Outcome.completed v)
       | IOBehavior.settlesAt _ (IOResult.err e) => some (Outcome.failed e)
       | IOBehavior.never => none) := by
  refine ⟨by simp [runWithTimeout, h], by simp [runWithTimeout, h], ?_⟩
  cases io with
  | settlesAt s r =>
    cases r with
    | ok v => simp [runWithTimeout, raceEvents_noTimer h, runSlot, settleSlot]
    | err e => simp [runWithTimeout, raceEvents_noTimer h, runSlot, settleSlot]
  | never =>
    cases timeout with
    | some t =>
      have ht : ¬0 < t := by simpa [timerArmed] using h
      simp [runWithTimeout, raceEvents, ht, runSlot]
    | none => simp [runWithTimeout, raceEvents, runSlot]

/-! ## Filesystem and pipeline lemmas -/

theorem writeBytesPrim_ensureDir (st : FsState) (p : String) (bs : List Nat)
    (append : Bool) :
    writeBytesPrim (ensureDir st p) p bs append =
      Except.ok (FsState.mk (pathParents p ++ st.dirs)
        ((p, if append then
            match lookupFile st.files p with
            | some old => old ++ bs
            | none => bs
          else bs) :: st.files)) := by
  unfold writeBytesPrim ensureDir
  rw [if_pos]
  exact fun d hd => List.mem_append_left _ hd

/-- `outputFile` always succeeds and both creates the parent directories
and stores the (possibly appended) contents. -/
theorem outputFile_eq (st : FsState) (p : String) (bs : List Nat)
    (append : Bool) :
    outputFile st p bs append =
      FsState.mk (pathParents p ++ st.dirs)
        ((p, if append then
            match lookupFile st.files p with
            | some old => old ++ bs
            | none => bs
          else bs) :: st.files) := by
  unfold outputFile
  rw [writeBytesPrim_ensureDir]

theorem lookupFile_cons_self (files : List (String × List Nat)) (p : String)
    (bs : List Nat) : lookupFile ((p, bs) :: files) p = some bs := by
  simp [lookupFile]

theorem utf8Encode_append (a b : List Char) :
    utf8Encode (a ++ b) = utf8Encode a ++ utf8Encode b := by
  induction a with
  | nil => rfl
  | cons c a ih =>
    show utf8EncodeChar c.toNat ++ utf8Encode (a ++ b) = _
    rw [ih]
    show _ = (utf8EncodeChar c.toNat ++ utf8Encode a) ++ utf8Encode b
    rw [List.append_assoc]

theorem resolvePath_data (root rel : String) :
    (resolvePath root rel).data = root.data ++ '/' :: rel.data := by
  show ((root ++ "/") ++ rel).data = _
  rw [String.data_append, String.data_append]
  show root.data ++ ['/'] ++ rel.data = _
  rw [List.append_assoc]
  rfl

/-- The resolved path is never empty. -/
theorem resolvePath_ne_empty (root rel : String) :
    resolvePath root rel ≠ "" := by
  intro h
  have hd : (resolvePath root rel).data = [] := by rw [h]
  rw [resolvePath_data] at hd
  simp at hd

/-- The resolved path contains the requested relative path (as a suffix of
the join). -/
theorem resolvePath_includes_rel (root rel : String) :
    ∃ pre, resolvePath root rel = pre ++ rel :=
  ⟨root ++ "/", rfl⟩

theorem timerArmed_of_timerWins {α : Type} {timeout : Option Nat}
    {io : IOBehavior α} (h : timerWins timeout io) :
    timerArmed timeout = true := by
  cases io with
  | settlesAt s r =>
    cases timeout with
    | some t => simp [timerArmed]; exact h.1
    | none => exact absurd h (by simp [timerWins])
  | never => exact h

theorem runWithTimeout_outcome_timerWins {α : Type} (tid : Nat)
    {timeout : Option Nat} {io : IOBehavior α} (h : timerWins timeout io) :
    (runWithTimeout tid timeout io).outcome = some Outcome.aborted :=
  runSlot_raceEvents_timerWins_nil h

/-- A timed-out `readFile` rejects with the timeout error. -/
theorem readFile_result_timerWins (tid : Nat) (root rel : String)
    (opts : ReadOptions) (io : IOBehavior (List Nat))
    (h : timerWins opts.timeout io) :
    (readFile tid root rel opts io).result =
      some (Except.error (mkTimeoutError (resolvePath root rel))) := by
  show ((runWithTimeout tid opts.timeout io).outcome.map _) = _
  rw [runWithTimeout_outcome_timerWins tid h]
  rfl

/-- A timed-out `writeFile` rejects with the timeout error. -/
theorem writeFile_result_timerWins (tid : Nat) (st : FsState)
    (root rel : String) (data : FileData) (opts : WriteOptions)
    (io : IOBehavior Unit) (h : timerWins opts.timeout io) :
    (writeFile tid st root rel data opts io).1.result =
      some (Except.error (mkTimeoutError (resolvePath root rel))) := by
  show ((runWithTimeout tid opts.timeout io).outcome.map _) = _
  rw [runWithTimeout_outcome_timerWins tid h]
  rfl

theorem readFile_clearArg (tid : Nat) (root rel : String) (opts : ReadOptions)
    (io : IOBehavior (List Nat)) :
    (readFile tid root rel opts io).clearArg =
      (if timerArmed opts.timeout then some tid else none) := rfl

theorem writeFile_clearArg (tid : Nat) (st : FsState) (root rel : String)
    (data : FileData) (opts : WriteOptions) (io : IOBehavior Unit) :
    (writeFile tid st root rel data opts io).1.clearArg =
      (if timerArmed opts.timeout then some tid else none) := rfl

/-- Reading an existing file with no armed timer surfaces the decoded
contents. -/
theorem readFileFs_result_of_found (st : FsState) (root rel : String)
    (opts : ReadOptions) (hto : timerArmed opts.timeout = false)
    (content : List Nat)
    (hlk : lookupFile st.files (resolvePath root rel) = some content) :
    (readFileFs st root rel opts).result =
      some (decodeContents (resolvePath root rel) opts.encoding content) := by
  unfold readFileFs readFile fsReadAction
  rw [hlk]
  obtain ⟨-, -, hout⟩ :=
    runWithTimeout_noTimer 0
      (IOBehavior.settlesAt 0 (IOResult.ok content)) hto
  dsimp only
  rw [hout]
  rfl

/-- The state after a successful `writeFileFs` is exactly `outputFile`. -/
theorem writeFileFs_state (st : FsState) (root rel : String) (data : FileData)
    (opts : WriteOptions) :
    (writeFileFs st root rel data opts).2 =
      outputFile st (resolvePath root rel) (encodeData opts.encoding data)
        opts.appendMode := rfl

/-- Any error produced by the decode-and-parse step is the parse error for
the resolved path. -/
theorem decodeContents_error (fp : String) (enc : EncodingOpt)
    (raw : List Nat) (e : DecoratedError)
    (h : decodeContents fp enc raw = Except.error e) : e = mkParseError fp := by
  unfold decodeContents at h
  by_cases hj : isJsonPath fp = true
  · rw [if_pos hj] at h
    cases hpj : parseJson (utf8DecodeStr raw) with
    | some v => rw [hpj] at h; cases h
    | none =>
      rw [hpj] at h
      cases h
      rfl
  · rw [if_neg hj] at h
    cases enc <;> cases h

/-! ## Claim theorems -/

/-- C1: For every ReadFile or WriteFile call with a timeout configured, if
the timer fires before the I/O action settles, the call's result is a
timeout error with aborted=true and the resolved path set, exactly one
outcome is produced for the call (the slot settles as `aborted` and stays
so under any further events), and any later settlement of the I/O action is
discarded: the call result does not depend on it, so it never surfaces as a
second result or an unhandled rejection. -/
theorem timeout_precedence (tid : Nat) (root rel : String) (st : FsState)
    (data : FileData) (ropts : ReadOptions) (wopts : WriteOptions)
    (ior : IOBehavior (List Nat)) (iow : IOBehavior Unit)
    (hr : timerWins ropts.timeout ior) (hw : timerWins wopts.timeout iow) :
    (readFile tid root rel ropts ior).result =
      some (Except.error (mkTimeoutError (resolvePath root rel))) ∧
    (writeFile tid st root rel data wopts iow).1.result =
      some (Except.error (mkTimeoutError (resolvePath root rel))) ∧
    (mkTimeoutError (resolvePath root rel)).kind = ErrorKind.timeoutError ∧
    (mkTimeoutError (resolvePath root rel)).aborted = some true ∧
    (mkTimeoutError (resolvePath root rel)).filePath = resolvePath root rel ∧
    (runWithTimeout tid ropts.timeout ior).outcome = some Outcome.aborted ∧
    (runWithTimeout tid wopts.timeout iow).outcome = some Outcome.aborted ∧
    (∀ extra, runSlot (raceEvents ropts.timeout ior ++ extra) =
      some Outcome.aborted) ∧
    (∀ extra, runSlot (raceEvents wopts.timeout iow ++ extra) =
      some Outcome.aborted) ∧
    (∀ ior2, timerWins ropts.timeout ior2 →
      (readFile tid root rel ropts ior2).result =
        (readFile tid root rel ropts ior).result) ∧
    (∀ iow2, timerWins wopts.timeout iow2 →
      (writeFile tid st root rel data wopts iow2).1.result =
        (writeFile tid st root rel data wopts iow).1.result) := by
  refine ⟨readFile_result_timerWins tid root rel ropts ior hr,
    writeFile_result_timerWins tid st root rel data wopts iow hw,
    rfl, rfl, rfl,
    runWithTimeout_outcome_timerWins tid hr,
    runWithTimeout_outcome_timerWins tid hw,
    fun extra => runSlot_raceEvents_timerWins hr extra,
    fun extra => runSlot_raceEvents_timerWins hw extra,
    fun ior2 h2 => ?_, fun iow2 h2 => ?_⟩
  · rw [readFile_result_timerWins tid root rel ropts ior2 h2,
      readFile_result_timerWins tid root rel ropts ior hr]
  · rw [writeFile_result_timerWins tid st root rel data wopts iow2 h2,
      writeFile_result_timerWins tid st root rel data wopts iow hw]

/-- C10: When a ReadFile or WriteFile call times out, the rejection is an
error whose `name` is exactly "AbortError", with `aborted = true` and the
`filePath` field set to the resolved path, and the armed timer's handle is
the argument passed to `clearTimeout`. -/
theorem abort_error_shape (tid : Nat) (root rel : String) (st : FsState)
    (data : FileData) (ropts : ReadOptions) (wopts : WriteOptions)
    (ior : IOBehavior (List Nat)) (iow : IOBehavior Unit)
    (hr : timerWins ropts.timeout ior) (hw : timerWins wopts.timeout iow) :
    (readFile tid root rel ropts ior).result =
      some (Except.error (mkTimeoutError (resolvePath root rel))) ∧
    (writeFile tid st root rel data wopts iow).1.result =
      some (Except.error (mkTimeoutError (resolvePath root rel))) ∧
    (mkTimeoutError (resolvePath root rel)).name = "AbortError" ∧
    (mkTimeoutError (resolvePath root rel)).aborted = some true ∧
    (mkTimeoutError (resolvePath root rel)).filePath = resolvePath root rel ∧
    (readFile tid root rel ropts ior).clearArg = some tid ∧
    (writeFile tid st root rel data wopts iow).1.clearArg = some tid := by
  refine ⟨readFile_result_timerWins tid root rel ropts ior hr,
    writeFile_result_timerWins tid st root rel data wopts iow hw,
    rfl, rfl, rfl, ?_, ?_⟩
  · rw [readFile_clearArg, timerArmed_of_timerWins hr]
    rfl
  · rw [writeFile_clearArg, timerArmed_of_timerWins hw]
    rfl

/-- C4: When the timeout option is absent or non-positive, no timer is
created and the outcome can only come from the underlying I/O action (never
`aborted`, and a failure outcome carries exactly the action's rejection);
the clear/cancel call is nevertheless made on every exit path with the
undefined handle (`clearArg = none`, no-op semantics). -/
theorem no_timer_when_absent (tid : Nat) (root rel : String) (st : FsState)
    (data : FileData) (ropts : ReadOptions) (wopts : WriteOptions)
    (ior : IOBehavior (List Nat)) (iow : IOBehavior Unit)
    (hr : timerArmed ropts.timeout = false)
    (hw : timerArmed wopts.timeout = false) :
    (readFile tid root rel ropts ior).timerCreated = false ∧
    (readFile tid root rel ropts ior).clearArg = none ∧
    (writeFile tid st root rel data wopts iow).1.timerCreated = false ∧
    (writeFile tid st root rel data wopts iow).1.clearArg = none ∧
    (runWithTimeout tid ropts.timeout ior).outcome ≠ some Outcome.aborted ∧
    (runWithTimeout tid wopts.timeout iow).outcome ≠ some Outcome.aborted ∧
    (∀ m, (runWithTimeout tid ropts.timeout ior).outcome =
        some (Outcome.failed m) →
      ∃ s, ior = IOBehavior.settlesAt s (IOResult.err m)) ∧
    (∀ m, (runWithTimeout tid wopts.timeout iow).outcome =
        some (Outcome.failed m) →
      ∃ s, iow = IOBehavior.settlesAt s (IOResult.err m)) := by
  obtain ⟨ht1, hc1, ho1⟩ := runWithTimeout_noTimer tid ior hr
  obtain ⟨ht2, hc2, ho2⟩ := runWithTimeout_noTimer tid iow hw
  refine ⟨ht1, by rw [readFile_clearArg, hr]; rfl, ht2,
    by rw [writeFile_clearArg, hw]; rfl, ?_, ?_, ?_, ?_⟩
  · rw [ho1]
    cases ior with
    | settlesAt s r => cases r <;> simp
    | never => simp
  · rw [ho2]
    cases iow with
    | settlesAt s r => cases r <;> simp
    | never => simp
  · intro m hm
    rw [ho1] at hm
    cases ior with
    | settlesAt s r =>
      cases r with
      | ok v => simp at hm
      | err e => simp at hm; exact ⟨s, by rw [hm]⟩
    | never => simp at hm
  · intro m hm
    rw [ho2] at hm
    cases iow with
    | settlesAt s r =>
      cases r with
      | ok v => simp at hm
      | err e => simp at hm; exact ⟨s, by rw [hm]⟩
    | never => simp at hm

theorem readFile_result_eq (tid : Nat) (root rel : String)
    (opts : ReadOptions) (io : IOBehavior (List Nat)) :
    (readFile tid root rel opts io).result =
      (runWithTimeout tid opts.timeout io).outcome.map (fun o =>
        match o with
        | Outcome.completed raw =>
          decodeContents (resolvePath root rel) opts.encoding raw
        | Outcome.failed msg =>
          Except.error (mkIOError msg (resolvePath root rel))
        | Outcome.aborted =>
          Except.error (mkTimeoutError (resolvePath root rel))) := rfl

theorem writeFile_result_eq (tid : Nat) (st : FsState) (root rel : String)
    (data : FileData) (opts : WriteOptions) (io : IOBehavior Unit) :
    (writeFile tid st root rel data opts io).1.result =
      (runWithTimeout tid opts.timeout io).outcome.map (fun o =>
        match o with
        | Outcome.completed _ =>
          Except.ok (WriteSuccess.mk (resolvePath root rel))
        | Outcome.failed msg =>
          Except.error (mkIOError msg (resolvePath root rel))
        | Outcome.aborted =>
          Except.error (mkTimeoutError (resolvePath root rel))) := rfl

/-- C3 (counterexample to the claim as stated): on a failing read primitive
the surfaced error's `aborted` field is `undefined` (modelled as `none`),
not `false` — exactly what the unit test pins with
`expect(err.aborted).to.equal(undefined)`. -/
theorem io_error_aborted_cex :
    (readFile 0 "/project" "f.txt"
        (ReadOptions.mk EncodingOpt.unspecified none)
        (IOBehavior.settlesAt 0
          (IOResult.err "UnexpectedError: How could this happen"))).result =
      some (Except.error (mkIOError "UnexpectedError: How could this happen"
        "/project/f.txt")) ∧
    (mkIOError "UnexpectedError: How could this happen"
      "/project/f.txt").aborted ≠ some false := by
  refine ⟨rfl, fun h => ?_⟩
  cases h

/-- C3 (amended): for every ReadFile or WriteFile call whose underlying I/O
primitive fails with no timeout involved, the surfaced error preserves the
original message unchanged, carries `aborted` undefined (absent, in
particular never `true`), and carries a resolved path that includes the
requested relative path. -/
theorem io_error_decoration (tid : Nat) (root rel msg : String)
    (st : FsState) (data : FileData) (ropts : ReadOptions)
    (wopts : WriteOptions) (sr sw : Nat)
    (hr : timerArmed ropts.timeout = false)
    (hw : timerArmed wopts.timeout = false) :
    (readFile tid root rel ropts
        (IOBehavior.settlesAt sr (IOResult.err msg))).result =
      some (Except.error (mkIOError msg (resolvePath root rel))) ∧
    (writeFile tid st root rel data wopts
        (IOBehavior.settlesAt sw (IOResult.err msg))).1.result =
      some (Except.error (mkIOError msg (resolvePath root rel))) ∧
    (mkIOError msg (resolvePath root rel)).message = msg ∧
    (mkIOError msg (resolvePath root rel)).aborted = none ∧
    (mkIOError msg (resolvePath root rel)).aborted ≠ some true ∧
    (∃ pre, (mkIOError msg (resolvePath root rel)).filePath = pre ++ rel) := by
  obtain ⟨-, -, ho1⟩ :=
    runWithTimeout_noTimer tid (IOBehavior.settlesAt sr (IOResult.err msg)) hr
  obtain ⟨-, -, ho2⟩ :=
    runWithTimeout_noTimer tid (IOBehavior.settlesAt sw (IOResult.err msg)) hw
  refine ⟨?_, ?_, rfl, rfl, ?_, ⟨root ++ "/", rfl⟩⟩
  · rw [readFile_result_eq, ho1]
    rfl
  · rw [writeFile_result_eq, ho2]
    rfl
  · intro h
    cases h

/-- C8: every error surfaced by ReadFile or WriteFile — I/O failure,
timeout, or parse failure — carries the (non-empty) resolved path of the
file involved. -/
theorem errors_carry_resolved_path (tid : Nat) (root rel : String)
    (st : FsState) (data : FileData) (ropts : ReadOptions)
    (wopts : WriteOptions) (ior : IOBehavior (List Nat))
    (iow : IOBehavior Unit) :
    (∀ e, (readFile tid root rel ropts ior).result =
        some (Except.error e) →
      e.filePath = resolvePath root rel ∧ e.filePath ≠ "") ∧
    (∀ e, (writeFile tid st root rel data wopts iow).1.result =
        some (Except.error e) →
      e.filePath = resolvePath root rel ∧ e.filePath ≠ "") := by
  have hne := resolvePath_ne_empty root rel
  refine ⟨fun e he => ?_, fun e he => ?_⟩
  · rw [readFile_result_eq] at he
    rcases hoc : (runWithTimeout tid ropts.timeout ior).outcome with _ | o
    · rw [hoc] at he
      cases he
    · rw [hoc] at he
      cases o with
      | completed raw =>
        have he2 : decodeContents (resolvePath root rel) ropts.encoding raw =
            Except.error e := by
          simpa using he
        have hpe := decodeContents_error _ _ _ _ he2
        rw [hpe]
        exact ⟨rfl, hne⟩
      | failed msg =>
        have he2 : Except.error (mkIOError msg (resolvePath root rel)) =
            (Except.error e : Except DecoratedError ReadSuccess) := by
          simpa using he
        cases he2
        exact ⟨rfl, hne⟩
      | aborted =>
        have he2 : Except.error (mkTimeoutError (resolvePath root rel)) =
            (Except.error e : Except DecoratedError ReadSuccess) := by
          simpa using he
        cases he2
        exact ⟨rfl, hne⟩
  · rw [writeFile_result_eq] at he
    rcases hoc : (runWithTimeout tid wopts.timeout iow).outcome with _ | o
    · rw [hoc] at he
      cases he
    · rw [hoc] at he
      cases o with
      | completed v =>
        have he2 : (Except.ok (WriteSuccess.mk (resolvePath root rel)) :
            Except DecoratedError WriteSuccess) = Except.error e := by
          simp at he
        cases he2
      | failed msg =>
        have he2 : Except.error (mkIOError msg (resolvePath root rel)) =
            (Except.error e : Except DecoratedError WriteSuccess) := by
          simpa using he
        cases he2
        exact ⟨rfl, hne⟩
      | aborted =>
        have he2 : Except.error (mkTimeoutError (resolvePath root rel)) =
            (Except.error e : Except DecoratedError WriteSuccess) := by
          simpa using he
        cases he2
        exact ⟨rfl, hne⟩

/-- C2: for every byte sequence B, WriteFile of B with explicit null/none
encoding followed by ReadFile with explicit null/none encoding returns
exactly B as raw bytes — byte-for-byte round trip with no transcoding. -/
theorem null_encoding_round_trip (st : FsState) (root rel : String)
    (B : List Nat) (hj : isJsonPath (resolvePath root rel) = false) :
    (readFileFs
        (writeFileFs st root rel (FileData.bytes B)
          (WriteOptions.mk EncodingOpt.null none false)).2
        root rel (ReadOptions.mk EncodingOpt.null none)).result =
      some (Except.ok (ReadSuccess.mk (Contents.bytes B)
        (resolvePath root rel))) := by
  rw [writeFileFs_state, outputFile_eq,
    readFileFs_result_of_found _ root rel
      (ReadOptions.mk EncodingOpt.null none) rfl _
      (lookupFile_cons_self _ _ _)]
  unfold decodeContents
  rw [hj]
  rfl

/-- C7: with no encoding option given, both operations default to utf8
text: writing any text string with default options and reading it back
with default options yields the original string, and a default-options
read of any stored bytes decodes them as utf8 text. -/
theorem default_encoding_round_trip (st : FsState) (root rel : String)
    (s : String) (hj : isJsonPath (resolvePath root rel) = false) :
    (readFileFs
        (writeFileFs st root rel (FileData.text s)
          (WriteOptions.mk EncodingOpt.unspecified none false)).2
        root rel (ReadOptions.mk EncodingOpt.unspecified none)).result =
      some (Except.ok (ReadSuccess.mk (Contents.text s)
        (resolvePath root rel))) ∧
    (∀ st2 content, lookupFile (FsState.files st2) (resolvePath root rel) =
        some content →
      (readFileFs st2 root rel
          (ReadOptions.mk EncodingOpt.unspecified none)).result =
        some (Except.ok (ReadSuccess.mk
          (Contents.text (utf8DecodeStr content)) (resolvePath root rel)))) := by
  constructor
  · rw [writeFileFs_state, outputFile_eq,
      readFileFs_result_of_found _ root rel
        (ReadOptions.mk EncodingOpt.unspecified none) rfl _
        (lookupFile_cons_self _ _ _)]
    unfold decodeContents
    rw [hj]
    show some (Except.ok (ReadSuccess.mk
      (Contents.text (utf8DecodeStr (utf8Encode s.data))) _)) = _
    rw [utf8DecodeStr_utf8Encode]
  · intro st2 content hlk
    rw [readFileFs_result_of_found st2 root rel
      (ReadOptions.mk EncodingOpt.unspecified none) rfl content hlk]
    unfold decodeContents
    rw [hj]
    rfl

/-- C5: WriteFile in default mode replaces existing content, while append
mode concatenates after it: writing "foo" then "bar" with default options
reads back "bar", and writing "foo" then "bar" with append mode enabled
reads back "foobar". -/
theorem overwrite_and_append (st : FsState) (root rel : String)
    (hj : isJsonPath (resolvePath root rel) = false) :
    (readFileFs
        (writeFileFs
          (writeFileFs st root rel (FileData.text "foo")
            (WriteOptions.mk EncodingOpt.unspecified none false)).2
          root rel (FileData.text "bar")
          (WriteOptions.mk EncodingOpt.unspecified none false)).2
        root rel (ReadOptions.mk EncodingOpt.unspecified none)).result =
      some (Except.ok (ReadSuccess.mk (Contents.text "bar")
        (resolvePath root rel))) ∧
    (readFileFs
        (writeFileFs
          (writeFileFs st root rel (FileData.text "foo")
            (WriteOptions.mk EncodingOpt.unspecified none false)).2
          root rel (FileData.text "bar")
          (WriteOptions.mk EncodingOpt.unspecified none true)).2
        root rel (ReadOptions.mk EncodingOpt.unspecified none)).result =
      some (Except.ok (ReadSuccess.mk (Contents.text "foobar")
        (resolvePath root rel))) := by
  constructor
  · rw [writeFileFs_state, writeFileFs_state, outputFile_eq, outputFile_eq,
      readFileFs_result_of_found _ root rel
        (ReadOptions.mk EncodingOpt.unspecified none) rfl _
        (lookupFile_cons_self _ _ _)]
    unfold decodeContents
    rw [hj]
    show some (Except.ok (ReadSuccess.mk
      (Contents.text (utf8DecodeStr (utf8Encode "bar".data))) _)) = _
    rw [utf8DecodeStr_utf8Encode]
  · rw [writeFileFs_state, writeFileFs_state, outputFile_eq, outputFile_eq,
      lookupFile_cons_self,
      readFileFs_result_of_found _ root rel
        (ReadOptions.mk EncodingOpt.unspecified none) rfl _
        (lookupFile_cons_self _ _ _)]
    unfold decodeContents
    rw [hj]
    show some (Except.ok (ReadSuccess.mk
      (Contents.text (utf8DecodeStr
        (utf8Encode "foo".data ++ utf8Encode "bar".data))) _)) = _
    rw [← utf8Encode_append,
      show "foo".data ++ "bar".data = "foobar".data from rfl,
      utf8DecodeStr_utf8Encode]

/-- C6: reading a path with a JSON extension parses valid content into a
structured value tree (not text), while invalid content of the same
extension yields a ParseError — distinct from an I/O failure and not an
abort — that still carries the resolved path. -/
theorem structured_parse (st : FsState) (root rel : String) (s : String)
    (hj : isJsonPath (resolvePath root rel) = true)
    (hlk : lookupFile (FsState.files st) (resolvePath root rel) =
      some (utf8Encode s.data)) :
    (∀ v, parseJson s = some v →
      (readFileFs st root rel
          (ReadOptions.mk EncodingOpt.unspecified none)).result =
        some (Except.ok (ReadSuccess.mk (Contents.json v)
          (resolvePath root rel))) ∧
      ∀ t, Contents.json v ≠ Contents.text t) ∧
    (parseJson s = none →
      (readFileFs st root rel
          (ReadOptions.mk EncodingOpt.unspecified none)).result =
        some (Except.error (mkParseError (resolvePath root rel))) ∧
      (mkParseError (resolvePath root rel)).kind = ErrorKind.parseError ∧
      (mkParseError (resolvePath root rel)).kind ≠ ErrorKind.ioError ∧
      (mkParseError (resolvePath root rel)).aborted = some false ∧
      (mkParseError (resolvePath root rel)).filePath = resolvePath root rel) := by
  constructor
  · intro v hv
    refine ⟨?_, fun t h => by cases h⟩
    rw [readFileFs_result_of_found st root rel
      (ReadOptions.mk EncodingOpt.unspecified none) rfl _ hlk]
    unfold decodeContents
    rw [hj, utf8DecodeStr_utf8Encode, hv]
    rfl
  · intro hnone
    refine ⟨?_, rfl, ?_, rfl, rfl⟩
    · rw [readFileFs_result_of_found st root rel
        (ReadOptions.mk EncodingOpt.unspecified none) rfl _ hlk]
      unfold decodeContents
      rw [hj, utf8DecodeStr_utf8Encode, hnone]
      rfl
    · intro h
      cases h

/-- C9: WriteFile creates any missing intermediate directories of the
resolved path as part of the write: the call succeeds even when no parent
directory exists (where the raw write primitive alone would fail), and
afterwards every parent directory exists. -/
theorem write_creates_parent_dirs (tid : Nat) (st : FsState)
    (root rel : String) (data : FileData) (wopts : WriteOptions) (sw : Nat)
    (hto : timerArmed wopts.timeout = false)
    (hmiss : ∀ d ∈ pathParents (resolvePath root rel), d ∉ st.dirs) :
    (writeFile tid st root rel data wopts
        (IOBehavior.settlesAt sw (IOResult.ok ()))).1.result =
      some (Except.ok (WriteSuccess.mk (resolvePath root rel))) ∧
    (∀ d ∈ pathParents (resolvePath root rel),
      d ∈ (writeFile tid st root rel data wopts
        (IOBehavior.settlesAt sw (IOResult.ok ()))).2.dirs) ∧
    (pathParents (resolvePath root rel) ≠ [] →
      ∃ emsg, writeBytesPrim st (resolvePath root rel)
        (encodeData wopts.encoding data) wopts.appendMode =
          Except.error emsg) := by
  obtain ⟨-, -, ho⟩ :=
    runWithTimeout_noTimer tid (IOBehavior.settlesAt sw (IOResult.ok ())) hto
  refine ⟨?_, ?_, ?_⟩
  · rw [writeFile_result_eq, ho]
    rfl
  · intro d hd
    rw [show (writeFile tid st root rel data wopts
        (IOBehavior.settlesAt sw (IOResult.ok ()))).2 =
      outputFile st (resolvePath root rel)
        (encodeData wopts.encoding data) wopts.appendMode from rfl,
      outputFile_eq]
    exact List.mem_append_left _ hd
  · intro hne
    obtain ⟨d, hd⟩ := List.exists_mem_of_ne_nil _ hne
    unfold writeBytesPrim
    rw [if_neg fun hall => hmiss d hd (hall d hd)]
    exact ⟨_, rfl⟩

/-! ## Concrete witnesses -/

theorem timeout_precedence_witness :
    timerWins (some 100)
      (IOBehavior.settlesAt 150 (IOResult.ok ([1] : List Nat))) ∧
    (readFile 4567 "/todos" "msg.txt"
        (ReadOptions.mk EncodingOpt.unspecified (some 100))
        (IOBehavior.settlesAt 150 (IOResult.ok [1]))).result =
      some (Except.error (mkTimeoutError (resolvePath "/todos" "msg.txt"))) :=
  ⟨⟨by decide, by decide⟩,
   (timeout_precedence 4567 "/todos" "msg.txt" emptyFs (FileData.text "foo")
      (ReadOptions.mk EncodingOpt.unspecified (some 100))
      (WriteOptions.mk EncodingOpt.unspecified (some 100) false)
      (IOBehavior.settlesAt 150 (IOResult.ok [1]))
      (IOBehavior.settlesAt 150 (IOResult.ok ()))
      ⟨by decide, by decide⟩ ⟨by decide, by decide⟩).1⟩

theorem abort_error_shape_witness :
    (readFile 4567 "/todos" "msg.txt"
        (ReadOptions.mk EncodingOpt.unspecified (some 100))
        (IOBehavior.settlesAt 150 (IOResult.ok [1]))).clearArg = some 4567 ∧
    (mkTimeoutError (resolvePath "/todos" "msg.txt")).name = "AbortError" :=
  let h := abort_error_shape 4567 "/todos" "msg.txt" emptyFs
    (FileData.text "foo")
    (ReadOptions.mk EncodingOpt.unspecified (some 100))
    (WriteOptions.mk EncodingOpt.unspecified (some 100) false)
    (IOBehavior.settlesAt 150 (IOResult.ok [1]))
    (IOBehavior.settlesAt 150 (IOResult.ok ()))
    ⟨by decide, by decide⟩ ⟨by decide, by decide⟩
  ⟨h.2.2.2.2.2.1, h.2.2.1⟩

theorem no_timer_when_absent_witness :
    timerArmed (none : Option Nat) = false ∧
    (readFile 0 "/todos" "msg.txt"
        (ReadOptions.mk EncodingOpt.unspecified none)
        (IOBehavior.settlesAt 0 (IOResult.ok [1]))).timerCreated = false ∧
    (readFile 0 "/todos" "msg.txt"
        (ReadOptions.mk EncodingOpt.unspecified none)
        (IOBehavior.settlesAt 0 (IOResult.ok [1]))).clearArg = none :=
  let h := no_timer_when_absent 0 "/todos" "msg.txt" emptyFs
    (FileData.text "foo")
    (ReadOptions.mk EncodingOpt.unspecified none)
    (WriteOptions.mk EncodingOpt.unspecified none false)
    (IOBehavior.settlesAt 0 (IOResult.ok [1]))
    (IOBehavior.settlesAt 0 (IOResult.ok ())) rfl rfl
  ⟨rfl, h.1, h.2.1⟩

theorem io_error_decoration_witness :
    (readFile 0 "/project" "f.txt"
        (ReadOptions.mk EncodingOpt.unspecified none)
        (IOBehavior.settlesAt 0 (IOResult.err "boom"))).result =
      some (Except.error (mkIOError "boom" (resolvePath "/project" "f.txt"))) ∧
    (mkIOError "boom" (resolvePath "/project" "f.txt")).aborted = none :=
  let h := io_error_decoration 0 "/project" "f.txt" "boom" emptyFs
    (FileData.text "x")
    (ReadOptions.mk EncodingOpt.unspecified none)
    (WriteOptions.mk EncodingOpt.unspecified none false) 0 0 rfl rfl
  ⟨h.1, h.2.2.2.1⟩

theorem errors_carry_resolved_path_witness :
    (mkIOError "boom" (resolvePath "/p" "q.txt")).filePath =
      resolvePath "/p" "q.txt" ∧
    (mkIOError "boom" (resolvePath "/p" "q.txt")).filePath ≠ "" :=
  (errors_carry_resolved_path 0 "/p" "q.txt" emptyFs (FileData.text "x")
      (ReadOptions.mk EncodingOpt.unspecified none)
      (WriteOptions.mk EncodingOpt.unspecified none false)
      (IOBehavior.settlesAt 0 (IOResult.err "boom"))
      (IOBehavior.settlesAt 0 (IOResult.err "boom"))).1
    (mkIOError "boom" (resolvePath "/p" "q.txt")) rfl

theorem null_encoding_round_trip_witness :
    isJsonPath (resolvePath "/project" "sub/raw.bin") = false ∧
    (readFileFs
        (writeFileFs emptyFs "/project" "sub/raw.bin"
          (FileData.bytes [0, 1, 255, 7])
          (WriteOptions.mk EncodingOpt.null none false)).2
        "/project" "sub/raw.bin" (ReadOptions.mk EncodingOpt.null none)).result =
      some (Except.ok (ReadSuccess.mk (Contents.bytes [0, 1, 255, 7])
        (resolvePath "/project" "sub/raw.bin"))) :=
  ⟨rfl, null_encoding_round_trip emptyFs "/project" "sub/raw.bin"
    [0, 1, 255, 7] rfl⟩

theorem default_encoding_round_trip_witness :
    isJsonPath (resolvePath "/project" "hello.txt") = false ∧
    (readFileFs
        (writeFileFs emptyFs "/project" "hello.txt" (FileData.text "héllo")
          (WriteOptions.mk EncodingOpt.unspecified none false)).2
        "/project" "hello.txt"
        (ReadOptions.mk EncodingOpt.unspecified none)).result =
      some (Except.ok (ReadSuccess.mk (Contents.text "héllo")
        (resolvePath "/project" "hello.txt"))) :=
  ⟨rfl, (default_encoding_round_trip emptyFs "/project" "hello.txt"
    "héllo" rfl).1⟩

theorem overwrite_and_append_witness :
    isJsonPath (resolvePath "/project" "w.txt") = false ∧
    (readFileFs
        (writeFileFs
          (writeFileFs emptyFs "/project" "w.txt" (FileData.text "foo")
            (WriteOptions.mk EncodingOpt.unspecified none false)).2
          "/project" "w.txt" (FileData.text "bar")
          (WriteOptions.mk EncodingOpt.unspecified none false)).2
        "/project" "w.txt"
        (ReadOptions.mk EncodingOpt.unspecified none)).result =
      some (Except.ok (ReadSuccess.mk (Contents.text "bar")
        (resolvePath "/project" "w.txt"))) ∧
    (readFileFs
        (writeFileFs
          (writeFileFs emptyFs "/project" "w.txt" (FileData.text "foo")
            (WriteOptions.mk EncodingOpt.unspecified none false)).2
          "/project" "w.txt" (FileData.text "bar")
          (WriteOptions.mk EncodingOpt.unspecified none true)).2
        "/project" "w.txt"
        (ReadOptions.mk EncodingOpt.unspecified none)).result =
      some (Except.ok (ReadSuccess.mk (Contents.text "foobar")
        (resolvePath "/project" "w.txt"))) :=
  ⟨rfl, (overwrite_and_append emptyFs "/project" "w.txt" rfl).1,
   (overwrite_and_append emptyFs "/project" "w.txt" rfl).2⟩

theorem structured_parse_witness :
    parseJson
      "[\x7b\"id\":1,\"name\":\"brian\"\x7d,\x7b\"id\":2,\"name\":\"jennifer\"\x7d]" =
      some (JValue.arr
        [JValue.obj [("id", JValue.num 1), ("name", JValue.str "brian")],
         JValue.obj [("id", JValue.num 2), ("name", JValue.str "jennifer")]]) ∧
    (readFileFs
        (FsState.mk [] [("/project/users.json",
          utf8Encode
            "[\x7b\"id\":1,\"name\":\"brian\"\x7d,\x7b\"id\":2,\"name\":\"jennifer\"\x7d]".data)])
        "/project" "users.json"
        (ReadOptions.mk EncodingOpt.unspecified none)).result =
      some (Except.ok (ReadSuccess.mk
        (Contents.json (JValue.arr
          [JValue.obj [("id", JValue.num 1), ("name", JValue.str "brian")],
           JValue.obj [("id", JValue.num 2), ("name", JValue.str "jennifer")]]))
        (resolvePath "/project" "users.json"))) ∧
    (readFileFs
        (FsState.mk [] [("/project/users.json", utf8Encode "\x7b".data)])
        "/project" "users.json"
        (ReadOptions.mk EncodingOpt.unspecified none)).result =
      some (Except.error (mkParseError (resolvePath "/project" "users.json"))) :=
  ⟨rfl,
   ((structured_parse
      (FsState.mk [] [("/project/users.json",
        utf8Encode
          "[\x7b\"id\":1,\"name\":\"brian\"\x7d,\x7b\"id\":2,\"name\":\"jennifer\"\x7d]".data)])
      "/project" "users.json"
      "[\x7b\"id\":1,\"name\":\"brian\"\x7d,\x7b\"id\":2,\"name\":\"jennifer\"\x7d]"
      rfl rfl).1 _ rfl).1,
   ((structured_parse
      (FsState.mk [] [("/project/users.json", utf8Encode "\x7b".data)])
      "/project" "users.json" "\x7b" rfl rfl).2 rfl).1⟩

theorem write_creates_parent_dirs_witness :
    (∀ d ∈ pathParents (resolvePath "/project" "a/b.txt"),
      d ∉ emptyFs.dirs) ∧
    (writeFile 0 emptyFs "/project" "a/b.txt" (FileData.text "foo")
        (WriteOptions.mk EncodingOpt.unspecified none false)
        (IOBehavior.settlesAt 0 (IOResult.ok ()))).1.result =
      some (Except.ok (WriteSuccess.mk (resolvePath "/project" "a/b.txt"))) ∧
    (∃ emsg, writeBytesPrim emptyFs (resolvePath "/project" "a/b.txt")
        (encodeData EncodingOpt.unspecified (FileData.text "foo")) false =
      Except.error emsg) :=
  let h := write_creates_parent_dirs 0 emptyFs "/project" "a/b.txt"
    (FileData.text "foo") (WriteOptions.mk EncodingOpt.unspecified none false)
    0 rfl (by decide)
  ⟨by decide, h.1, h.2.2 (by decide)⟩

end Files
